import Mathlib

/-!
Verification of the Politic-One-Page repository (ErrorTK backend).

This file shallowly embeds the Python sources
`nanshan/errorTK/backend/data_manager.py`,
`nanshan/errorTK/backend/scraper.py` and
`nanshan/errorTK/backend/interactive_cli.py` into Lean and proves the
spec's claims about them.

Modelling conventions:
* JSON values are the inductive `Json`; Python dicts appearing in JSON are
  association lists `List (String × Json)` (keys unique, insertion order kept,
  matching dicts produced by `json.load`).
* The data file on disk is a `FileState`: `missing` (no file), `corrupt`
  (text that `json.load` rejects), or `json j` (text parsing to `j`).
* The upstream HTTP API is an explicit `Upstream` record of oracles; a
  `none` response models a failed request (`make_request` returning `None`).
* `datetime.now()` / `time.strftime` are explicit timestamp parameters.
* Python string operations (`strip`, `split`, `upper`, `isdigit`, `int`,
  `str`) are re-implemented structurally over `List Char` so that every
  definition evaluates inside the kernel; they agree with CPython on the
  ASCII strings this data uses.
-/

/-- A JSON value, as produced by Python's `json.load`: objects keep key
insertion order and have unique keys. -/
inductive Json where
  | null
  | bool (b : Bool)
  | num (n : Int)
  | str (s : String)
  | arr (l : List Json)
  | obj (kvs : List (String × Json))

/-- First-occurrence lookup in a JSON object's key-value list; `d[k]` /
`d.get(k)` on a Python dict (post-`json.load` keys are unique). -/
def jLookup (k : String) : List (String × Json) → Option Json
  | [] => none
  | (k', v) :: rest => if k' = k then some v else jLookup k rest

/-- Python `d.get(k, dflt)`: the stored value when the key is present
(even if that value is `None`), else the default. -/
def pyGetKv (kvs : List (String × Json)) (k : String) (dflt : Json) : Json :=
  (jLookup k kvs).getD dflt

/-- Python truthiness of a JSON value: `None`, `False`, `0`, `""`, `[]`
and the empty dict are falsy, everything else truthy. -/
def jTruthy : Json → Bool
  | .null => false
  | .bool b => b
  | .num n => decide (n ≠ 0)
  | .str s => !s.data.isEmpty
  | .arr l => !l.isEmpty
  | .obj kvs => !kvs.isEmpty

/-- Python `v == n` for a JSON value `v` against an `int` `n` (Python
booleans compare equal to 0/1; other types are never equal to an int). -/
def pyEqInt (v : Json) (n : Int) : Bool :=
  match v with
  | .num m => m == n
  | .bool b => (if b then (1 : Int) else 0) == n
  | _ => false

/-! ### Python string primitives, re-implemented structurally -/

/-- Python `s.strip()`: drop whitespace from both ends (character list). -/
def pyStripChars (l : List Char) : List Char :=
  ((l.dropWhile Char.isWhitespace).reverse.dropWhile Char.isWhitespace).reverse

/-- Python `s.strip()` on strings. -/
def pyStrip (s : String) : String :=
  ⟨pyStripChars s.data⟩

/-- Python `s.split(sep)` for a one-character separator, on character
lists: `"".split(',') == ['']`, separators at the ends produce empty
pieces, exactly as in CPython. -/
def pySplitChars (sep : Char) : List Char → List (List Char)
  | [] => [[]]
  | c :: rest =>
    match pySplitChars sep rest with
    | [] => []
    | g :: gs => if c = sep then [] :: g :: gs else (c :: g) :: gs

/-- Python `s.split(sep)` on strings. -/
def pySplit (sep : Char) (s : String) : List String :=
  (pySplitChars sep s.data).map fun l => ⟨l⟩

/-- Python `s.upper()` (ASCII range, which is all this data uses). -/
def pyUpper (s : String) : String :=
  ⟨s.data.map Char.toUpper⟩

/-- Python `s.isdigit()`: true iff `s` is non-empty and all characters are
digits (restricted to ASCII digits; the upstream answer keys are ASCII). -/
def pyIsDigit (s : String) : Bool :=
  !s.data.isEmpty && s.data.all Char.isDigit

/-- Python `int(c)` for a single digit character. -/
def pyDigitVal (c : Char) : Nat :=
  c.toNat - 48

/-- Python `int(s)` on an optionally signed decimal string, `none` when
`int` would raise `ValueError`. -/
def pyToInt? (s : String) : Option Int :=
  let core : List Char → Option Nat := fun l =>
    if l.isEmpty ∨ !l.all Char.isDigit then none
    else some (l.foldl (fun acc c => acc * 10 + pyDigitVal c) 0)
  match pyStripChars s.data with
  | '-' :: rest => (core rest).map fun n => -(n : Int)
  | '+' :: rest => (core rest).map fun n => (n : Int)
  | l => (core l).map fun n => (n : Int)

/-- Python `<` on strings: lexicographic comparison by code point. -/
def pyStrLtChars : List Char → List Char → Bool
  | [], [] => false
  | [], _ :: _ => true
  | _ :: _, [] => false
  | a :: l, b :: m => if a = b then pyStrLtChars l m else decide (a < b)

/-- Python `<` on strings. -/
def pyStrLt (a b : String) : Bool :=
  pyStrLtChars a.data b.data

/-- Python `repr` of a JSON value (containers render their elements; the
scalar cases are the ones the claims exercise). -/
def pyRepr (j : Json) : String :=
  match j with
  | .null => "None"
  | .bool true => "True"
  | .bool false => "False"
  | .num n => toString n
  | .str s => String.singleton (Char.ofNat 39) ++ s ++ String.singleton (Char.ofNat 39)
  | .arr l =>
    "[" ++ String.intercalate ", " (l.attach.map fun x => pyRepr x.1) ++ "]"
  | .obj kvs =>
    "\x7b" ++ String.intercalate ", "
      (kvs.attach.map fun x =>
        String.singleton (Char.ofNat 39) ++ x.1.1 ++ String.singleton (Char.ofNat 39)
          ++ ": " ++ pyRepr x.1.2) ++ "\x7d"
termination_by sizeOf j
decreasing_by
  · have := List.sizeOf_lt_of_mem x.2
    simp only [Json.arr.sizeOf_spec]
    omega
  · obtain ⟨⟨k, v⟩, hmem⟩ := x
    have h := List.sizeOf_lt_of_mem hmem
    simp only [Prod.mk.sizeOf_spec] at h
    simp only [Json.obj.sizeOf_spec]
    omega

/-- Python `str` of a JSON value: a string renders as itself, anything else
as its `repr`-style text (`str(None) == "None"`, `str(13) == "13"`). -/
def pyStr : Json → String
  | .str s => s
  | .null => "None"
  | .bool true => "True"
  | .bool false => "False"
  | .num n => toString n
  | j => pyRepr j

/-! ### Data model (`data_manager.py`)

The `Option` and `Question` dataclasses.  Python dataclasses do not check
the types of their fields, and `load_data` stores whatever JSON values the
file holds, so every scalar field is modelled as a `Json` value; only the
shapes that Python code would crash on (a non-dict option, a missing
required key) are rejected by the parser, exactly as the corresponding
Python expression would raise. -/

/-- The `Option` dataclass of `data_manager.py` (named `QOption` here to
avoid clashing with Lean's `Option`). -/
structure QOption where
  label : Json
  content : Json

/-- The `Question` dataclass of `data_manager.py`, fields in declaration
order. -/
structure Question where
  id : Json
  origin_name : Json
  sub_name : Json
  content : Json
  options : List QOption
  answer : Json
  analysis : Json
  comments : Json
  type : Json
  user_status : Json
  last_reviewed : Json
  source : Json

/-- The `ErrorData` dataclass: meta dict plus the three buckets. -/
structure ErrorData where
  meta : Json
  simulation : List Question
  real : List Question
  famous : List Question

/-- The on-disk data file: absent, present but not valid JSON (so that
`json.load` raises), or present with JSON content `j`. -/
inductive FileState where
  | missing
  | corrupt
  | json (j : Json)

/-- The default meta dict `{"last_sync": None, "version": "1.0"}`. -/
def defaultMeta : Json :=
  Json.obj [("last_sync", Json.null), ("version", Json.str "1.0")]

/-- The `ErrorData` that `load_data` returns for a missing or unreadable
file: default meta, no questions. -/
def defaultData : ErrorData :=
  { meta := defaultMeta, simulation := [], real := [], famous := [] }

/-- Effectful left-to-right traversal: the first element on which `f`
fails makes the whole traversal fail, like an exception escaping a Python
list comprehension. -/
def parseList (f : α → Option β) : List α → Option (List β)
  | [] => some []
  | a :: l =>
    match f a with
    | none => none
    | some b =>
      match parseList f l with
      | none => none
      | some bs => some (b :: bs)

/-- `Option(**o)`: requires `o` to be a dict with exactly the keys
`label` and `content` (a missing or extra key raises `TypeError`). -/
def parseQOption (j : Json) : Option QOption :=
  match j with
  | .obj kvs =>
    let ks := kvs.map Prod.fst
    if ks.contains "label" && ks.contains "content" && kvs.length == 2 then
      some { label := pyGetKv kvs "label" .null, content := pyGetKv kvs "content" .null }
    else none
  | _ => none

/-- The `options=[Option(**o) for o in q['options']]` expression: iterating
a non-list raises, except that iterating an empty dict or empty string
yields nothing (CPython iterates dict keys and string characters). -/
def parseOptions (j : Json) : Option (List QOption) :=
  match j with
  | .arr l => parseList parseQOption l
  | .obj [] => some []
  | .str "" => some []
  | _ => none

/-- One `Question(...)` construction inside `parse_questions`: the keys
`id`, `origin_name`, `sub_name`, `content`, `options`, `answer` and
`analysis` are accessed with `q[...]` (raising `KeyError` when absent),
the rest with `q.get(...)` and a default. -/
def parseQuestion (j : Json) : Option Question :=
  match j with
  | .obj kvs =>
    match jLookup "id" kvs, jLookup "origin_name" kvs, jLookup "sub_name" kvs,
          jLookup "content" kvs, jLookup "options" kvs, jLookup "answer" kvs,
          jLookup "analysis" kvs with
    | some i, some ogn, some sn, some ct, some optsJ, some ans, some anl =>
      match parseOptions optsJ with
      | some opts =>
        some { id := i, origin_name := ogn, sub_name := sn, content := ct,
               options := opts, answer := ans, analysis := anl,
               comments := pyGetKv kvs "comments" (.arr []),
               type := pyGetKv kvs "type" (.num 0),
               user_status := pyGetKv kvs "user_status" (.str "new"),
               last_reviewed := (jLookup "last_reviewed" kvs).getD .null,
               source := (jLookup "source" kvs).getD .null }
      | none => none
    | _, _, _, _, _, _, _ => none
  | _ => none

/-- `parse_questions` applied to the value stored under a bucket key
(`raw_data.get(k, [])`): an absent key defaults to `[]`; a non-list value
raises while being iterated, except for the empty-dict and empty-string
quirks of `parseOptions`. -/
def parseBucket (j : Option Json) : Option (List Question) :=
  match j with
  | none => some []
  | some (.arr l) => parseList parseQuestion l
  | some (.obj []) => some []
  | some (.str "") => some []
  | some _ => none

/-- `load_data()` of `data_manager.py`: a missing file gives the default
dataset; any exception while decoding or parsing the JSON is caught,
logged and also gives the default dataset. -/
def load_data (fs : FileState) : ErrorData :=
  match fs with
  | .missing => defaultData
  | .corrupt => defaultData
  | .json (.obj kvs) =>
    (match parseBucket (jLookup "simulation" kvs),
           parseBucket (jLookup "real" kvs),
           parseBucket (jLookup "famous" kvs) with
     | some sim, some re, some fam =>
       { meta := (jLookup "meta" kvs).getD defaultMeta,
         simulation := sim, real := re, famous := fam }
     | _, _, _ => defaultData)
  | .json _ => defaultData

/-- `asdict` of one `Option`. -/
def encodeQOption (o : QOption) : Json :=
  Json.obj [("label", o.label), ("content", o.content)]

/-- `asdict` of one `Question`: all twelve fields, in dataclass
declaration order. -/
def encodeQuestion (q : Question) : Json :=
  Json.obj [("id", q.id), ("origin_name", q.origin_name), ("sub_name", q.sub_name),
            ("content", q.content), ("options", .arr (q.options.map encodeQOption)),
            ("answer", q.answer), ("analysis", q.analysis), ("comments", q.comments),
            ("type", q.type), ("user_status", q.user_status),
            ("last_reviewed", q.last_reviewed), ("source", q.source)]

/-- `asdict(data)`: the JSON document `save_data` serializes. -/
def encodeData (d : ErrorData) : Json :=
  Json.obj [("meta", d.meta),
            ("simulation", .arr (d.simulation.map encodeQuestion)),
            ("real", .arr (d.real.map encodeQuestion)),
            ("famous", .arr (d.famous.map encodeQuestion))]

/-- `save_data(data)`: overwrites the data file with `json.dump(asdict(data))`
(`json.dump` with `indent=2` is deterministic, so file content is modelled
by the JSON value it writes). -/
def save_data (d : ErrorData) : FileState :=
  FileState.json (encodeData d)

/-- The inner loop of `update_question_status` over one bucket: scan in
order, mutate the first question whose `id` equals `question_id` and stop;
returns the bucket and whether a match was found. -/
def updBucket (qs : List Question) (question_id : Int) (new_status timestamp : String) :
    List Question × Bool :=
  match qs with
  | [] => ([], false)
  | q :: rest =>
    if pyEqInt q.id question_id then
      ({ q with user_status := .str new_status, last_reviewed := .str timestamp } :: rest, true)
    else
      let (rest', found) := updBucket rest question_id new_status timestamp
      (q :: rest', found)

/-- `update_question_status(question_id, new_status)`: loads the dataset,
scans simulation, then real, then famous, stopping at the first id match;
on a match it saves and returns `True`, otherwise it returns `False`
without writing.  `datetime.now().isoformat()` is the explicit
`timestamp` argument. -/
def update_question_status (fs : FileState) (question_id : Int)
    (new_status timestamp : String) : Bool × FileState :=
  let data := load_data fs
  let (sim, f1) := updBucket data.simulation question_id new_status timestamp
  if f1 then (true, save_data { data with simulation := sim })
  else
    let (re, f2) := updBucket data.real question_id new_status timestamp
    if f2 then (true, save_data { data with real := re })
    else
      let (fam, f3) := updBucket data.famous question_id new_status timestamp
      if f3 then (true, save_data { data with famous := fam })
      else (false, fs)

/-! ### Normalizer (`scraper.py`, `_normalize_question`) -/

/-- The option labels `['A', 'B', 'C', 'D']`. -/
def answerLabels : List String := ["A", "B", "C", "D"]

/-- The answer-key decoding of `_normalize_question`, applied to the
already stripped `correct_raw` string: the all-digits branch maps each
digit `d` to `labels[d-1]` when `0 <= d-1 < 4` (appending as the Python
loop does), the other branch splits on commas and strips/upper-cases each
piece.  Only reached when `correct_raw` is non-empty. -/
def decodeCorrect (correct_raw : String) : List String :=
  if pyIsDigit correct_raw then
    correct_raw.data.foldl
      (fun acc c =>
        let idx : Int := (pyDigitVal c : Int) - 1
        if 0 ≤ idx ∧ idx < 4 then acc ++ [answerLabels.getD idx.toNat ""] else acc)
      []
  else
    (pySplit ',' correct_raw).map fun label => pyUpper (pyStrip label)

/-- `_normalize_question(question_data, source_type, origin_name, sub_name)`:
returns `None` for a falsy (empty) raw dict, otherwise builds the
normalized dict, whose keys are listed in Python insertion order (the
`options`/`answer` keys are created empty in the literal and then filled
in place, keeping their position). -/
def _normalize_question (question_data : List (String × Json))
    (source_type origin_name sub_name : String) : Option Json :=
  if question_data.isEmpty then none
  else
    let options : List Json :=
      ["a", "b", "c", "d"].filterMap fun key =>
        match jLookup key question_data with
        | some v =>
          if jTruthy v then
            some (Json.obj [("label", .str (pyUpper key)), ("content", v)])
          else none
        | none => none
    let correct_raw := pyStrip (pyStr (pyGetKv question_data "correct" (.str "")))
    let answer : List String :=
      if correct_raw.data.isEmpty then [] else decodeCorrect correct_raw
    some (Json.obj
      [("id", pyGetKv question_data "id" .null),
       ("origin_name", .str origin_name),
       ("sub_name", .str sub_name),
       ("type", pyGetKv question_data "type" (.num 0)),
       ("content", pyGetKv question_data "title" (.str "")),
       ("options", .arr options),
       ("answer", .arr (answer.map Json.str)),
       ("analysis", pyGetKv question_data "explain" (.str "")),
       ("user_status", .str "new"),
       ("last_reviewed", .null),
       ("comments", .arr []),
       ("source", .str source_type)])

/-- `d[k] = v` on a Python dict: overwrite in place when the key exists
(keeping its position), append otherwise. -/
def setObjKey (j : Json) (k : String) (v : Json) : Json :=
  match j with
  | .obj kvs => .obj (go kvs)
  | other => other
where
  go : List (String × Json) → List (String × Json)
    | [] => [(k, v)]
    | (k', v') :: rest => if k' = k then (k, v) :: rest else (k', v') :: go rest

/-! ### Batcher (`scraper.py`, `get_question_details` and
`get_question_details_batched`)

The detail endpoint is an oracle `List Int → Option (List Json)`:
`none` models a failed `make_request` (which returns `None`), `some l`
models a response whose `data` field holds `l` (a missing or null `data`
field is `some []`, as `(data.get("data") or [])` yields `[]` for it). -/

/-- `get_question_details(qids)`: empty input short-circuits to `[]`, a
failed request yields `[]`, otherwise one request is issued for the whole
id list. -/
def get_question_details (oracle : List Int → Option (List Json))
    (qids : List Int) : List Json :=
  if qids.isEmpty then [] else (oracle qids).getD []

/-- The `for i in range(0, len(qids), batch_size)` loop of
`get_question_details_batched`, structurally recursive on a fuel that
counts loop iterations; `batchedGo` is only called with fuel at least
`qids.length`, which always suffices for `batch_size >= 1`. -/
def batchedGo (oracle : List Int → Option (List Json)) (batch_size : Nat) :
    Nat → List Int → List Json
  | _, [] => []
  | 0, _ :: _ => []
  | fuel + 1, q :: rest =>
    let details := get_question_details oracle ((q :: rest).take batch_size)
    (if details.isEmpty then [] else details)
      ++ batchedGo oracle batch_size fuel ((q :: rest).drop batch_size)

/-- `get_question_details_batched(qids, batch_size)`: slices `qids` into
chunks `qids[i:i+batch_size]` and concatenates the per-chunk results,
skipping empty results.  (In Python a `batch_size` of zero raises inside
`range`; the model returns `[]` there, and every claim about this
function assumes a positive batch size.) -/
def get_question_details_batched (oracle : List Int → Option (List Json))
    (qids : List Int) (batch_size : Nat) : List Json :=
  batchedGo oracle batch_size qids.length qids

/-- Contiguous chunks of at most `batch_size` elements, in input order;
this is the claim-side description of the slicing that the batched loop
performs (same fuel pattern as `batchedGo`). -/
def chunksGo (batch_size : Nat) : Nat → List Int → List (List Int)
  | _, [] => []
  | 0, _ :: _ => []
  | fuel + 1, q :: rest =>
    (q :: rest).take batch_size :: chunksGo batch_size fuel ((q :: rest).drop batch_size)

/-- The chunk decomposition `[qids[0:b], qids[b:2b], ...]`. -/
def chunksOf (batch_size : Nat) (qids : List Int) : List (List Int) :=
  chunksGo batch_size qids.length qids

/-- The chunk sizes produced by splitting `n` ids into chunks of at most
`batch_size`. -/
def lenChunks (batch_size : Nat) : Nat → List Nat
  | 0 => []
  | n + 1 =>
    if batch_size = 0 then []
    else min batch_size (n + 1) :: lenChunks batch_size (n + 1 - batch_size)

/-! ### Aggregator (`scraper.py`, the three walkers and `fetch_all_errors`)

Each upstream endpoint is an oracle field of `Upstream`.  A `none`
response collapses both a failed request and a falsy/absent `data`
envelope, since the walkers treat the two identically (they skip the unit
of work).  Raw question payloads are JSON values; the walkers hand the
dict ones to the normalizer (on this data the detail endpoint only
returns dicts — a non-dict element would make CPython raise inside
`q_data.get`, which no modelled input exercises). -/

/-- One chapter/roll inside a simulation paper: `name` and the
comma-joined `qids` string (either may be absent or null). -/
structure SimRoll where
  name : Option String
  qids : Option String

/-- One simulation paper: `name` and its `list` of rolls. -/
structure SimPaper where
  name : Option String
  rolls : Option (List SimRoll)

/-- One real-exam paper: `name` and its comma-joined `qids` string. -/
structure RealPaper where
  name : Option String
  qids : Option String

/-- One `{"qId": ...}` item inside a famous-teacher chapter. -/
structure FamousQItem where
  qId : Option Int

/-- One famous-teacher chapter: `name` plus its question items. -/
structure FamousChapter where
  name : Option String
  questions : Option (List FamousQItem)

/-- One famous-teacher book. -/
structure FamousBook where
  id : Option Int
  name : Option String

/-- One famous-teacher class. -/
structure FamousClass where
  id : Option Int
  name : Option String

/-- The upstream HTTP API as a record of response oracles. -/
structure Upstream where
  simPapers : Option (List SimPaper)
  realPapers : Option (List RealPaper)
  famousClasses : Option (List FamousClass)
  books : Int → Option (List FamousBook)
  chapters : Int → Int → Option (List FamousChapter)
  details : List Int → Option (List Json)
  comments : Json → List String

/-- `list(map(int, qids_str.split(',')))`.  (On a malformed piece CPython's
`int` raises and the whole sync aborts; the model substitutes 0, and no
modelled input is malformed.) -/
def parseQids (qids_str : String) : List Int :=
  (pySplit ',' qids_str).map fun p => (pyToInt? p).getD 0

/-- The shared incremental filter: under `if existing:` (a non-empty
existing-id set) keep only ids not already present, and skip the unit of
work (`continue`) when nothing is left; with an empty existing set the id
list is used as-is. -/
def filterExisting (existing : List Int) (qids : List Int) : Option (List Int) :=
  if existing.isEmpty then some qids
  else
    let remaining := qids.filter fun q => decide (q ∉ existing)
    if remaining.isEmpty then none else some remaining

/-- The shared per-question tail of every walker: fetch comments when the
flag is on, normalize, overwrite the `comments` key, and drop questions
the normalizer rejects. -/
def collectNormalized (up : Upstream) (include_comments : Bool)
    (details : List Json) (source_type origin_name sub_name : String) : List Json :=
  details.flatMap fun q_data =>
    match q_data with
    | .obj kvs =>
      let comments :=
        if include_comments then up.comments ((jLookup "id" kvs).getD .null) else []
      match _normalize_question kvs source_type origin_name sub_name with
      | some nq => [setObjKey nq "comments" (.arr (comments.map Json.str))]
      | none => []
    | _ => []

/-- `fetch_simulation_errors(existing)`: walk papers and rolls, parse and
filter each roll's id string, batch-fetch details and normalize with
`source="simulation"`. -/
def fetch_simulation_errors (up : Upstream) (batch_size : Nat)
    (include_comments : Bool) (existing : List Int) : List Json :=
  match up.simPapers with
  | none => []
  | some papers =>
    papers.flatMap fun paper =>
      let origin_name := paper.name.getD "Unknown Paper"
      (paper.rolls.getD []).flatMap fun roll =>
        let sub_name := roll.name.getD "Unknown Roll"
        match roll.qids with
        | none => []
        | some qids_str =>
          if qids_str.data.isEmpty then []
          else
            match filterExisting existing (parseQids qids_str) with
            | none => []
            | some qids =>
              let details := get_question_details_batched up.details qids batch_size
              collectNormalized up include_comments details "simulation" origin_name sub_name

/-- `fetch_real_exam_errors(existing)`: like the simulation walker but the
papers carry their `qids` directly and `sub_name` is empty. -/
def fetch_real_exam_errors (up : Upstream) (batch_size : Nat)
    (include_comments : Bool) (existing : List Int) : List Json :=
  match up.realPapers with
  | none => []
  | some papers =>
    papers.flatMap fun paper =>
      let origin_name := paper.name.getD "Unknown Real Exam"
      match paper.qids with
      | none => []
      | some qids_str =>
        if qids_str.data.isEmpty then []
        else
          match filterExisting existing (parseQids qids_str) with
          | none => []
          | some qids =>
            let details := get_question_details_batched up.details qids batch_size
            collectNormalized up include_comments details "real" origin_name ""

/-- `fetch_famous_errors(existing)`: classes → books (with the synthetic
"Default Book" fallback) → chapters; each chapter contributes its truthy
`qId`s, filtered and fetched like the other walkers. -/
def fetch_famous_errors (up : Upstream) (batch_size : Nat)
    (include_comments : Bool) (existing : List Int) : List Json :=
  match up.famousClasses with
  | none => []
  | some classes =>
    classes.flatMap fun cls =>
      match cls.id with
      | none => []
      | some class_id =>
        if class_id = 0 then []
        else
          let origin_name := cls.name.getD "Unknown Famous Teacher Class"
          let books0 := (up.books class_id).getD []
          let books :=
            if books0.isEmpty then [⟨some 1, some "Default Book"⟩] else books0
          books.flatMap fun book =>
            match book.id with
            | none => []
            | some book_id =>
              if book_id = 0 then []
              else
                match up.chapters class_id book_id with
                | none => []
                | some chaps =>
                  chaps.flatMap fun chapter =>
                    let sub_name := chapter.name.getD "Unknown Chapter"
                    let qids0 :=
                      (chapter.questions.getD []).filterMap fun item =>
                        match item.qId with
                        | some n => if n = 0 then none else some n
                        | none => none
                    if qids0.isEmpty then []
                    else
                      match filterExisting existing qids0 with
                      | none => []
                      | some qids =>
                        let details := get_question_details_batched up.details qids batch_size
                        collectNormalized up include_comments details "famous" origin_name sub_name

/-- The accumulation of `_load_existing_ids` over one bucket's stored
list: collect `q['id']` for each dict element whose id is an int, keeping
set semantics (no duplicates).  The second component is `false` when a
non-dict element made `q.get` raise `AttributeError`; the ids collected
before the exception are kept, since the function's `except` clause
swallows the exception and returns the partially filled sets. -/
def collectIdsGo : List Json → List Int → List Int × Bool
  | [], acc => (acc, true)
  | q :: rest, acc =>
    match q with
    | .obj kvs =>
      match (jLookup "id" kvs).getD .null with
      | .num n => collectIdsGo rest (if n ∈ acc then acc else acc ++ [n])
      | _ => collectIdsGo rest acc
    | _ => (acc, false)

/-- `for q in (jd.get(k) or []):` — a falsy stored value is replaced by
`[]`; a truthy non-list raises while being iterated (again modulo the
dict/string iteration quirk, which still raises at `q.get`). -/
def collectIds (stored : Option Json) : List Int × Bool :=
  match stored with
  | none => ([], true)
  | some v =>
    if jTruthy v then
      match v with
      | .arr l => collectIdsGo l []
      | _ => ([], false)
    else ([], true)

/-- `_load_existing_ids()`: reads the raw data file and collects the
per-bucket id sets; any exception is swallowed, keeping whatever ids had
been collected up to that point. -/
def _load_existing_ids (fs : FileState) : List Int × List Int × List Int :=
  match fs with
  | .missing => ([], [], [])
  | .corrupt => ([], [], [])
  | .json (.obj kvs) =>
    let (sim, ok1) := collectIds (jLookup "simulation" kvs)
    if ok1 then
      let (re, ok2) := collectIds (jLookup "real" kvs)
      if ok2 then
        let (fam, _) := collectIds (jLookup "famous" kvs)
        (sim, re, fam)
      else (sim, re, [])
    else (sim, [], [])
  | .json _ => ([], [], [])

/-- Which of the three sources are selected (`SELECTED_SOURCES`), plus the
other runtime options that `fetch_all_errors` reads. -/
structure SyncConfig where
  selSimulation : Bool
  selReal : Bool
  selFamous : Bool
  incremental : Bool
  batch_size : Nat
  include_comments : Bool

/-- `fetch_all_errors()`: stamps `meta.last_sync` with the current UTC
time (`now`, an explicit parameter), loads the existing id sets once when
incremental mode is on, and runs the selected walkers.  The result is the
raw dict that the sync flow writes. -/
def fetch_all_errors (up : Upstream) (fs : FileState) (cfg : SyncConfig)
    (now : String) : Json :=
  let existing :=
    if cfg.incremental then _load_existing_ids fs else ([], [], [])
  Json.obj
    [("meta", Json.obj [("last_sync", .str now), ("version", .str "1.0")]),
     ("simulation", .arr (if cfg.selSimulation then
        fetch_simulation_errors up cfg.batch_size cfg.include_comments existing.1 else [])),
     ("real", .arr (if cfg.selReal then
        fetch_real_exam_errors up cfg.batch_size cfg.include_comments existing.2.1 else [])),
     ("famous", .arr (if cfg.selFamous then
        fetch_famous_errors up cfg.batch_size cfg.include_comments existing.2.2 else []))]

/-- `sync_data()` of `interactive_cli.py`: runs `fetch_all_errors` and
writes the returned dict directly over the data file with `json.dump`,
then returns `True`.  (The `except` branch that returns `False` is not
reachable for the total functions modelled here.) -/
def sync_data (up : Upstream) (fs : FileState) (cfg : SyncConfig)
    (now : String) : Bool × FileState :=
  (true, FileState.json (fetch_all_errors up fs cfg now))

/-! ### Claim-side descriptions and helper lemmas for the Store -/

/-- The in-place mutation `q.user_status = new_status; q.last_reviewed =
timestamp` performed on the matched question. -/
def updQ (q : Question) (ns ts : String) : Question :=
  { q with user_status := .str ns, last_reviewed := .str ts }

/-- Whether a question's stored id equals the requested integer id
(Python `q.id == question_id`). -/
def hasIdQ (qid : Int) (q : Question) : Bool := pyEqInt q.id qid

/-- Claim-side point update of one bucket, in the claim's own words:
linear scan, stop at the first question whose id matches, set its
`user_status` and `last_reviewed`; `none` when no id matches. -/
def setFirstMatch (qid : Int) (ns ts : String) : List Question → Option (List Question)
  | [] => none
  | q :: rest =>
    if hasIdQ qid q then some (updQ q ns ts :: rest)
    else (setFirstMatch qid ns ts rest).map (q :: ·)

/-- Claim-side description of `updateStatus`: scan the simulation, then
real, then famous buckets in that fixed order and update the first match;
`none` when the id is nowhere. -/
def updateStatusClaim (d : ErrorData) (qid : Int) (ns ts : String) : Option ErrorData :=
  match setFirstMatch qid ns ts d.simulation with
  | some sim => some { d with simulation := sim }
  | none =>
    match setFirstMatch qid ns ts d.real with
    | some re => some { d with real := re }
    | none => (setFirstMatch qid ns ts d.famous).map fun fam => { d with famous := fam }

/-- All questions of a dataset in the scan order of
`update_question_status`. -/
def allQuestions (d : ErrorData) : List Question :=
  d.simulation ++ d.real ++ d.famous

/-- The `user_status` stored for an id (first match in scan order). -/
def statusOf (d : ErrorData) (qid : Int) : Option Json :=
  ((allQuestions d).find? (hasIdQ qid)).map (·.user_status)

/-- The `last_reviewed` stored for an id (first match in scan order). -/
def lastReviewedOf (d : ErrorData) (qid : Int) : Option Json :=
  ((allQuestions d).find? (hasIdQ qid)).map (·.last_reviewed)

/-- Everything of a question except `user_status` and `last_reviewed` is
unchanged, and those two now hold the given status and timestamp. -/
def onlyStatusChanged (q q' : Question) (ns ts : String) : Prop :=
  q'.id = q.id ∧ q'.origin_name = q.origin_name ∧ q'.sub_name = q.sub_name ∧
    q'.content = q.content ∧ q'.options = q.options ∧ q'.answer = q.answer ∧
    q'.analysis = q.analysis ∧ q'.comments = q.comments ∧ q'.type = q.type ∧
    q'.source = q.source ∧ q'.user_status = .str ns ∧ q'.last_reviewed = .str ts

/-- Frame relation between a bucket before and after a point update: same
length, and position-wise either untouched or an `onlyStatusChanged`
rewrite of the old question. -/
def bucketFrame (ns ts : String) (l l' : List Question) : Prop :=
  l'.length = l.length ∧
    ∀ i, l'.get? i = l.get? i ∨
      ∃ q q', l.get? i = some q ∧ l'.get? i = some q' ∧ onlyStatusChanged q q' ns ts

theorem parseQOption_encode (o : QOption) : parseQOption (encodeQOption o) = some o := rfl

theorem parseList_encode_options (os : List QOption) :
    parseList parseQOption (os.map encodeQOption) = some os := by
  induction os with
  | nil => rfl
  | cons o rest ih => simp [parseList, parseQOption_encode, ih]

theorem parseQuestion_encode (q : Question) : parseQuestion (encodeQuestion q) = some q := by
  have h := parseList_encode_options q.options
  simp only [parseQuestion, encodeQuestion, jLookup, parseOptions]
  simp [h, pyGetKv, jLookup]

theorem parseList_encode_questions (l : List Question) :
    parseList parseQuestion (l.map encodeQuestion) = some l := by
  induction l with
  | nil => rfl
  | cons q rest ih => simp [parseList, parseQuestion_encode, ih]

theorem load_data_save_data (d : ErrorData) : load_data (save_data d) = d := by
  simp only [load_data, save_data, encodeData, jLookup, parseBucket]
  simp [parseList_encode_questions]

theorem updBucket_eq_setFirstMatch (qs : List Question) (qid : Int) (ns ts : String) :
    updBucket qs qid ns ts =
      match setFirstMatch qid ns ts qs with
      | some l => (l, true)
      | none => (qs, false) := by
  induction qs with
  | nil => rfl
  | cons q rest ih =>
    simp only [updBucket, setFirstMatch, hasIdQ]
    by_cases h : pyEqInt q.id qid
    · simp [h, updQ]
    · simp only [h, if_neg, Bool.false_eq_true, if_false, ih]
      cases hr : setFirstMatch qid ns ts rest <;> simp

theorem setFirstMatch_none_iff (qs : List Question) (qid : Int) (ns ts : String) :
    setFirstMatch qid ns ts qs = none ↔ qs.all (fun q => !hasIdQ qid q) = true := by
  induction qs with
  | nil => simp [setFirstMatch]
  | cons q rest ih =>
    simp only [setFirstMatch, List.all_cons]
    by_cases h : hasIdQ qid q
    · simp [h]
    · simp [h, ih]

theorem update_matches_claim (fs : FileState) (qid : Int) (ns ts : String) :
    update_question_status fs qid ns ts =
      (match updateStatusClaim (load_data fs) qid ns ts with
       | some d' => (true, save_data d')
       | none => (false, fs)) := by
  simp only [update_question_status, updateStatusClaim,
    updBucket_eq_setFirstMatch]
  cases hs : setFirstMatch qid ns ts (load_data fs).simulation with
  | some sim => simp
  | none =>
    cases hr : setFirstMatch qid ns ts (load_data fs).real with
    | some re => simp
    | none =>
      cases hf : setFirstMatch qid ns ts (load_data fs).famous with
      | some fam => simp
      | none => simp

theorem hasIdQ_updQ (qid : Int) (q : Question) (ns ts : String) :
    hasIdQ qid (updQ q ns ts) = hasIdQ qid q := rfl

theorem setFirstMatch_find? (qid : Int) (ns ts : String) (l l' : List Question)
    (h : setFirstMatch qid ns ts l = some l') :
    l'.find? (hasIdQ qid) = (l.find? (hasIdQ qid)).map (fun q => updQ q ns ts) := by
  induction l generalizing l' with
  | nil => simp [setFirstMatch] at h
  | cons q rest ih =>
    simp only [setFirstMatch] at h
    by_cases hq : hasIdQ qid q
    · simp only [hq, if_true] at h
      cases h
      simp [List.find?_cons, hq, hasIdQ_updQ]
    · simp only [hq, Bool.false_eq_true, if_false] at h
      cases hr : setFirstMatch qid ns ts rest with
      | none => rw [hr] at h; simp at h
      | some l'' =>
        rw [hr] at h
        simp only [Option.map_some'] at h
        cases h
        simp [List.find?_cons, hq, ih l'' hr]

theorem setFirstMatch_all_none (qid : Int) (l : List Question)
    (h : l.all (fun q => !hasIdQ qid q) = true) :
    l.find? (hasIdQ qid) = none := by
  induction l with
  | nil => rfl
  | cons q rest ih =>
    simp only [List.all_cons, Bool.and_eq_true, Bool.not_eq_true'] at h
    simp [List.find?_cons, h.1, ih h.2]

theorem bucketFrame_refl (ns ts : String) (l : List Question) : bucketFrame ns ts l l :=
  ⟨rfl, fun _ => Or.inl rfl⟩

theorem onlyStatusChanged_updQ (q : Question) (ns ts : String) :
    onlyStatusChanged q (updQ q ns ts) ns ts := by
  refine ⟨rfl, rfl, rfl, rfl, rfl, rfl, rfl, rfl, rfl, rfl, rfl, rfl⟩

theorem setFirstMatch_frame (qid : Int) (ns ts : String) (l l' : List Question)
    (h : setFirstMatch qid ns ts l = some l') : bucketFrame ns ts l l' := by
  induction l generalizing l' with
  | nil => simp [setFirstMatch] at h
  | cons q rest ih =>
    simp only [setFirstMatch] at h
    by_cases hq : hasIdQ qid q
    · simp only [hq, if_true] at h
      cases h
      refine ⟨by simp [updQ], fun i => ?_⟩
      match i with
      | 0 => exact Or.inr ⟨q, updQ q ns ts, rfl, rfl, onlyStatusChanged_updQ q ns ts⟩
      | i + 1 => exact Or.inl rfl
    · simp only [hq, Bool.false_eq_true, if_false] at h
      cases hr : setFirstMatch qid ns ts rest with
      | none => rw [hr] at h; simp at h
      | some l'' =>
        rw [hr] at h
        simp only [Option.map_some'] at h
        cases h
        obtain ⟨hlen, hget⟩ := ih l'' hr
        refine ⟨by simpa using hlen, fun i => ?_⟩
        match i with
        | 0 => exact Or.inl rfl
        | i + 1 => simpa using hget i

theorem find?_append_some (p : α → Bool) (l₁ l₂ : List α) (a : α)
    (h : l₁.find? p = some a) : (l₁ ++ l₂).find? p = some a := by
  induction l₁ with
  | nil => simp [List.find?] at h
  | cons x rest ih =>
    by_cases hx : p x
    · simp_all [List.find?_cons, hx]
    · simp_all [List.find?_cons, hx]

theorem find?_append_none (p : α → Bool) (l₁ l₂ : List α)
    (h : l₁.find? p = none) : (l₁ ++ l₂).find? p = l₂.find? p := by
  induction l₁ with
  | nil => simp
  | cons x rest ih =>
    by_cases hx : p x
    · simp [List.find?_cons, hx] at h
    · simp_all [List.find?_cons, hx]

theorem setFirstMatch_some_find? (qid : Int) (ns ts : String) (l l' : List Question)
    (h : setFirstMatch qid ns ts l = some l') :
    ∃ a, l.find? (hasIdQ qid) = some a := by
  induction l generalizing l' with
  | nil => simp [setFirstMatch] at h
  | cons q rest ih =>
    simp only [setFirstMatch] at h
    by_cases hq : hasIdQ qid q
    · exact ⟨q, by simp [List.find?_cons, hq]⟩
    · simp only [hq, Bool.false_eq_true, if_false] at h
      cases hr : setFirstMatch qid ns ts rest with
      | none => rw [hr] at h; simp at h
      | some l'' =>
        obtain ⟨a, ha⟩ := ih l'' hr
        exact ⟨a, by simp [List.find?_cons, hq, ha]⟩

theorem updateStatusClaim_found (d : ErrorData) (qid : Int) (ns ts : String)
    (h : (allQuestions d).any (hasIdQ qid) = true) :
    ∃ d', updateStatusClaim d qid ns ts = some d' ∧
      d'.meta = d.meta ∧
      bucketFrame ns ts d.simulation d'.simulation ∧
      bucketFrame ns ts d.real d'.real ∧
      bucketFrame ns ts d.famous d'.famous ∧
      (allQuestions d').find? (hasIdQ qid) =
        ((allQuestions d).find? (hasIdQ qid)).map (fun q => updQ q ns ts) := by
  unfold updateStatusClaim
  cases hs : setFirstMatch qid ns ts d.simulation with
  | some sim' =>
    refine ⟨{ d with simulation := sim' }, rfl, rfl,
      setFirstMatch_frame qid ns ts _ _ hs, bucketFrame_refl ns ts _, bucketFrame_refl ns ts _, ?_⟩
    have hfind := setFirstMatch_find? qid ns ts _ _ hs
    obtain ⟨a, hfs⟩ := setFirstMatch_some_find? qid ns ts _ _ hs
    rw [hfs, Option.map_some'] at hfind
    simp only [allQuestions, List.append_assoc]
    rw [find?_append_some _ _ _ _ hfind, find?_append_some _ _ _ _ hfs, Option.map_some']
  | none =>
    have hs_all := (setFirstMatch_none_iff d.simulation qid ns ts).mp hs
    have hs_find : d.simulation.find? (hasIdQ qid) = none := setFirstMatch_all_none qid _ hs_all
    cases hr : setFirstMatch qid ns ts d.real with
    | some re' =>
      refine ⟨{ d with real := re' }, rfl, rfl, bucketFrame_refl ns ts _,
        setFirstMatch_frame qid ns ts _ _ hr, bucketFrame_refl ns ts _, ?_⟩
      have hfind := setFirstMatch_find? qid ns ts _ _ hr
      obtain ⟨a, hfr⟩ := setFirstMatch_some_find? qid ns ts _ _ hr
      rw [hfr, Option.map_some'] at hfind
      simp only [allQuestions, List.append_assoc]
      rw [find?_append_none _ _ _ hs_find, find?_append_none _ _ _ hs_find,
        find?_append_some _ _ _ _ hfind, find?_append_some _ _ _ _ hfr, Option.map_some']
    | none =>
      have hr_all := (setFirstMatch_none_iff d.real qid ns ts).mp hr
      have hr_find : d.real.find? (hasIdQ qid) = none := setFirstMatch_all_none qid _ hr_all
      cases hf : setFirstMatch qid ns ts d.famous with
      | some fam' =>
        refine ⟨{ d with famous := fam' }, rfl, rfl, bucketFrame_refl ns ts _,
          bucketFrame_refl ns ts _, setFirstMatch_frame qid ns ts _ _ hf, ?_⟩
        have hfind := setFirstMatch_find? qid ns ts _ _ hf
        simp only [allQuestions, List.append_assoc]
        rw [find?_append_none _ _ _ hs_find, find?_append_none _ _ _ hs_find,
          find?_append_none _ _ _ hr_find, find?_append_none _ _ _ hr_find, hfind]
      | none =>
        exfalso
        have hf_all := (setFirstMatch_none_iff d.famous qid ns ts).mp hf
        simp only [allQuestions, List.any_append, Bool.or_eq_true] at h
        simp only [List.all_eq_true, Bool.not_eq_true'] at hs_all hr_all hf_all
        rcases h with (h | h) | h <;>
          · simp only [List.any_eq_true] at h
            obtain ⟨q, hq, hpq⟩ := h
            first
            | exact absurd (hs_all q hq) (by simp [hpq])
            | exact absurd (hr_all q hq) (by simp [hpq])
            | exact absurd (hf_all q hq) (by simp [hpq])

theorem updateStatusClaim_none_iff (d : ErrorData) (qid : Int) (ns ts : String) :
    updateStatusClaim d qid ns ts = none ↔
      (allQuestions d).all (fun q => !hasIdQ qid q) = true := by
  unfold updateStatusClaim
  simp only [allQuestions, List.all_append, Bool.and_eq_true]
  cases hs : setFirstMatch qid ns ts d.simulation with
  | some sim' =>
    simp only []
    constructor
    · intro hcon; simp at hcon
    · rintro ⟨⟨h1, _⟩, _⟩
      rw [← setFirstMatch_none_iff d.simulation qid ns ts] at h1
      rw [h1] at hs; simp at hs
  | none =>
    cases hr : setFirstMatch qid ns ts d.real with
    | some re' =>
      simp only []
      constructor
      · intro hcon; simp at hcon
      · rintro ⟨⟨_, h2⟩, _⟩
        rw [← setFirstMatch_none_iff d.real qid ns ts] at h2
        rw [h2] at hr; simp at hr
    | none =>
      simp only [Option.map_eq_none']
      constructor
      · intro h3
        exact ⟨⟨(setFirstMatch_none_iff d.simulation qid ns ts).mp hs,
               (setFirstMatch_none_iff d.real qid ns ts).mp hr⟩,
               (setFirstMatch_none_iff d.famous qid ns ts).mp h3⟩
      · rintro ⟨⟨_, _⟩, h3⟩
        exact (setFirstMatch_none_iff d.famous qid ns ts).mpr h3

theorem exists_find?_of_any (p : α → Bool) (l : List α) (h : l.any p = true) :
    ∃ a, l.find? p = some a := by
  rcases List.any_eq_true.mp h with ⟨x, hx, hpx⟩
  have := List.find?_isSome.mpr ⟨x, hx, hpx⟩
  cases hf : l.find? p with
  | none => rw [hf] at this; simp at this
  | some a => exact ⟨a, rfl⟩

theorem any_of_find? (p : α → Bool) (l : List α) (a : α) (h : l.find? p = some a) :
    l.any p = true := by
  have hmem := List.mem_of_find?_eq_some h
  have hpa := List.find?_some h
  exact List.any_eq_true.mpr ⟨a, hmem, hpa⟩

theorem setFirstMatch_decomp (qid : Int) (ns ts : String) (l l' : List Question)
    (h : setFirstMatch qid ns ts l = some l') :
    ∃ l1 q l2, l = l1 ++ q :: l2 ∧ l' = l1 ++ updQ q ns ts :: l2 ∧
      hasIdQ qid q = true ∧ ∀ p ∈ l1, hasIdQ qid p = false := by
  induction l generalizing l' with
  | nil => simp [setFirstMatch] at h
  | cons q rest ih =>
    simp only [setFirstMatch] at h
    by_cases hq : hasIdQ qid q
    · simp only [hq, if_true] at h
      cases h
      exact ⟨[], q, rest, rfl, rfl, hq, by simp⟩
    · simp only [hq, Bool.false_eq_true, if_false] at h
      cases hr : setFirstMatch qid ns ts rest with
      | none => rw [hr] at h; simp at h
      | some l'' =>
        rw [hr] at h
        simp only [Option.map_some'] at h
        cases h
        obtain ⟨l1, a, l2, hrest, hl'', ha, hl1⟩ := ih l'' hr
        refine ⟨q :: l1, a, l2, by simp [hrest], by simp [hl''], ha, ?_⟩
        intro p hp
        rcases List.mem_cons.mp hp with rfl | hp
        · exact Bool.eq_false_iff.mpr hq
        · exact hl1 p hp

theorem all_not_hasIdQ (qid : Int) (l : List Question)
    (h : l.all (fun q => !hasIdQ qid q) = true) :
    ∀ p ∈ l, hasIdQ qid p = false := by
  intro p hp
  have := List.all_eq_true.mp h p hp
  simpa using this

theorem updateStatusClaim_decomp (d : ErrorData) (qid : Int) (ns ts : String)
    (h : (allQuestions d).any (hasIdQ qid) = true) :
    ∃ d' A q B, updateStatusClaim d qid ns ts = some d' ∧
      d'.meta = d.meta ∧
      d'.simulation.length = d.simulation.length ∧
      d'.real.length = d.real.length ∧
      d'.famous.length = d.famous.length ∧
      allQuestions d = A ++ q :: B ∧
      allQuestions d' = A ++ updQ q ns ts :: B ∧
      hasIdQ qid q = true ∧
      (∀ p ∈ A, hasIdQ qid p = false) ∧
      ((∃ s1 s2, d.simulation = s1 ++ q :: s2 ∧ d'.simulation = s1 ++ updQ q ns ts :: s2 ∧
          d'.real = d.real ∧ d'.famous = d.famous) ∨
       (∃ r1 r2, d'.simulation = d.simulation ∧ d.real = r1 ++ q :: r2 ∧
          d'.real = r1 ++ updQ q ns ts :: r2 ∧ d'.famous = d.famous) ∨
       (∃ f1 f2, d'.simulation = d.simulation ∧ d'.real = d.real ∧
          d.famous = f1 ++ q :: f2 ∧ d'.famous = f1 ++ updQ q ns ts :: f2)) := by
  unfold updateStatusClaim
  cases hs : setFirstMatch qid ns ts d.simulation with
  | some sim' =>
    obtain ⟨l1, a, l2, hsim, hsim', ha, hl1⟩ := setFirstMatch_decomp qid ns ts _ _ hs
    refine ⟨{ d with simulation := sim' }, l1, a, l2 ++ (d.real ++ d.famous), rfl, rfl,
      ?_, rfl, rfl, ?_, ?_, ha, hl1, Or.inl ⟨l1, l2, hsim, hsim', rfl, rfl⟩⟩
    · rw [hsim, hsim']; simp
    · simp only [allQuestions, hsim]
      simp [List.append_assoc]
    · show sim' ++ d.real ++ d.famous = _
      rw [hsim']
      simp [List.append_assoc]
  | none =>
    have hs_all := all_not_hasIdQ qid _ ((setFirstMatch_none_iff d.simulation qid ns ts).mp hs)
    cases hr : setFirstMatch qid ns ts d.real with
    | some re' =>
      obtain ⟨l1, a, l2, hre, hre', ha, hl1⟩ := setFirstMatch_decomp qid ns ts _ _ hr
      refine ⟨{ d with real := re' }, d.simulation ++ l1, a, l2 ++ d.famous, rfl, rfl,
        rfl, ?_, rfl, ?_, ?_, ha, ?_, Or.inr (Or.inl ⟨l1, l2, rfl, hre, hre', rfl⟩)⟩
      · rw [hre, hre']; simp
      · simp only [allQuestions, hre]
        simp [List.append_assoc]
      · show d.simulation ++ re' ++ d.famous = _
        rw [hre']
        simp [List.append_assoc]
      · intro p hp
        rcases List.mem_append.mp hp with hp | hp
        · exact hs_all p hp
        · exact hl1 p hp
    | none =>
      have hr_all := all_not_hasIdQ qid _ ((setFirstMatch_none_iff d.real qid ns ts).mp hr)
      cases hf : setFirstMatch qid ns ts d.famous with
      | some fam' =>
        obtain ⟨l1, a, l2, hfam, hfam', ha, hl1⟩ := setFirstMatch_decomp qid ns ts _ _ hf
        refine ⟨{ d with famous := fam' }, d.simulation ++ d.real ++ l1, a, l2,
          rfl, rfl, rfl, rfl, ?_, ?_, ?_, ha, ?_,
          Or.inr (Or.inr ⟨l1, l2, rfl, rfl, hfam, hfam'⟩)⟩
        · rw [hfam, hfam']; simp
        · simp only [allQuestions, hfam]
          simp [List.append_assoc]
        · show d.simulation ++ d.real ++ fam' = _
          rw [hfam']
          simp [List.append_assoc]
        · intro p hp
          rcases List.mem_append.mp hp with hp | hp
          · rcases List.mem_append.mp hp with hp | hp
            · exact hs_all p hp
            · exact hr_all p hp
          · exact hl1 p hp
      | none =>
        exfalso
        have hf_all := all_not_hasIdQ qid _ ((setFirstMatch_none_iff d.famous qid ns ts).mp hf)
        simp only [allQuestions, List.any_append, Bool.or_eq_true] at h
        rcases h with (h | h) | h
        · obtain ⟨p, hp, hpq⟩ := List.any_eq_true.mp h
          rw [hs_all p hp] at hpq
          exact Bool.false_ne_true hpq
        · obtain ⟨p, hp, hpq⟩ := List.any_eq_true.mp h
          rw [hr_all p hp] at hpq
          exact Bool.false_ne_true hpq
        · obtain ⟨p, hp, hpq⟩ := List.any_eq_true.mp h
          rw [hf_all p hp] at hpq
          exact Bool.false_ne_true hpq

/-! ### Claim-side answer decoding and helper lemmas for the normalizer -/

/-- Claim-side answer decoding, in the claim's words: an all-digits key
maps each digit `d` with `1 <= d <= 4` to `{A,B,C,D}[d-1]` in digit order,
silently dropping out-of-range digits; any other key is split on commas
and each piece trimmed and upper-cased. -/
def answerSpec (c : String) : List String :=
  if pyIsDigit c then
    c.data.filterMap fun ch =>
      let d := pyDigitVal ch
      if 1 ≤ d ∧ d ≤ 4 then some (answerLabels.getD (d - 1) "") else none
  else
    (pySplit ',' c).map fun piece => pyUpper (pyStrip piece)

theorem decode_digits_filterMap (l : List Char) (acc : List String) :
    l.foldl (fun acc c =>
        let idx : Int := (pyDigitVal c : Int) - 1
        if 0 ≤ idx ∧ idx < 4 then acc ++ [answerLabels.getD idx.toNat ""] else acc) acc
      = acc ++ l.filterMap (fun ch =>
          let d := pyDigitVal ch
          if 1 ≤ d ∧ d ≤ 4 then some (answerLabels.getD (d - 1) "") else none) := by
  induction l generalizing acc with
  | nil => simp
  | cons ch rest ih =>
    simp only [List.foldl_cons, List.filterMap_cons]
    by_cases h1 : 1 ≤ pyDigitVal ch ∧ pyDigitVal ch ≤ 4
    · have h0 : 0 ≤ (pyDigitVal ch : Int) - 1 ∧ (pyDigitVal ch : Int) - 1 < 4 := by omega
      have htn : ((pyDigitVal ch : Int) - 1).toNat = pyDigitVal ch - 1 := by omega
      simp only [if_pos h0, if_pos h1, htn, ih]
      simp
    · have h0 : ¬(0 ≤ (pyDigitVal ch : Int) - 1 ∧ (pyDigitVal ch : Int) - 1 < 4) := by omega
      simp only [if_neg h0, if_neg h1, ih]

theorem decodeCorrect_eq_answerSpec (c : String) : decodeCorrect c = answerSpec c := by
  unfold decodeCorrect answerSpec
  by_cases hd : pyIsDigit c
  · simp only [hd, if_true]
    simpa using decode_digits_filterMap c.data []
  · simp [hd]

/-- The `answer` field of a normalized question dict. -/
def answerOf (o : Option Json) : Option Json :=
  match o with
  | some (.obj kvs) => jLookup "answer" kvs
  | _ => none

/-- The `content` field of a normalized question dict. -/
def contentOf (o : Option Json) : Option Json :=
  match o with
  | some (.obj kvs) => jLookup "content" kvs
  | _ => none

/-! ### Helper lemmas for the batcher -/

theorem if_isEmpty_self (l : List α) : (if l.isEmpty then ([] : List α) else l) = l := by
  cases l <;> simp

theorem chunksGo_flatten (bs : Nat) (hbs : 0 < bs) :
    ∀ (fuel : Nat) (l : List Int), l.length ≤ fuel → (chunksGo bs fuel l).flatten = l := by
  intro fuel
  induction fuel with
  | zero =>
    intro l hl
    cases l with
    | nil => rfl
    | cons q rest => simp at hl
  | succ fuel ih =>
    intro l hl
    cases l with
    | nil => rfl
    | cons q rest =>
      simp only [chunksGo, List.flatten_cons]
      rw [ih ((q :: rest).drop bs)
        (by simp only [List.length_drop, List.length_cons] at hl ⊢; omega)]
      exact List.take_append_drop bs (q :: rest)

theorem chunksGo_mem (bs : Nat) (hbs : 0 < bs) :
    ∀ (fuel : Nat) (l : List Int), l.length ≤ fuel →
      ∀ c ∈ chunksGo bs fuel l, c ≠ [] ∧ c.length ≤ bs := by
  intro fuel
  induction fuel with
  | zero =>
    intro l hl c hc
    cases l with
    | nil => simp [chunksGo] at hc
    | cons q rest => simp at hl
  | succ fuel ih =>
    intro l hl c hc
    cases l with
    | nil => simp [chunksGo] at hc
    | cons q rest =>
      simp only [chunksGo, List.mem_cons] at hc
      rcases hc with rfl | hc
      · constructor
        · cases bs with
          | zero => omega
          | succ b => simp [List.take_cons]
        · rw [List.length_take]; omega
      · exact ih ((q :: rest).drop bs)
          (by simp only [List.length_drop, List.length_cons] at hl ⊢; omega) c hc

theorem batchedGo_eq_chunks (oracle : List Int → Option (List Json)) (bs : Nat) (hbs : 0 < bs) :
    ∀ (fuel : Nat) (l : List Int), l.length ≤ fuel →
      batchedGo oracle bs fuel l = (chunksGo bs fuel l).flatMap fun c => (oracle c).getD [] := by
  intro fuel
  induction fuel with
  | zero =>
    intro l hl
    cases l with
    | nil => rfl
    | cons q rest => simp at hl
  | succ fuel ih =>
    intro l hl
    cases l with
    | nil => rfl
    | cons q rest =>
      simp only [batchedGo, chunksGo, List.flatMap_cons]
      rw [ih ((q :: rest).drop bs)
        (by simp only [List.length_drop, List.length_cons] at hl ⊢; omega)]
      congr 1
      have hne : ((q :: rest).take bs).isEmpty = false := by
        cases bs with
        | zero => omega
        | succ b => simp [List.take_cons]
      rw [get_question_details, hne]
      simp only [Bool.false_eq_true, if_false, if_isEmpty_self]

theorem chunksGo_lengths (bs : Nat) (hbs : 0 < bs) :
    ∀ (fuel : Nat) (l : List Int), l.length ≤ fuel →
      (chunksGo bs fuel l).map List.length = lenChunks bs l.length := by
  intro fuel
  induction fuel with
  | zero =>
    intro l hl
    cases l with
    | nil => simp [chunksGo, lenChunks]
    | cons q rest => simp at hl
  | succ fuel ih =>
    intro l hl
    cases l with
    | nil => simp [chunksGo, lenChunks]
    | cons q rest =>
      simp only [chunksGo, List.map_cons]
      rw [ih ((q :: rest).drop bs)
        (by simp only [List.length_drop, List.length_cons] at hl ⊢; omega)]
      rw [List.length_take, List.length_drop]
      rw [show (q :: rest).length = rest.length + 1 from rfl]
      rw [lenChunks]
      simp [Nat.pos_iff_ne_zero.mp hbs]

theorem lenChunks_50_120 : lenChunks 50 120 = [50, 50, 20] := by
  rw [show (120 : Nat) = 119 + 1 from rfl, lenChunks]
  norm_num
  rw [show (70 : Nat) = 69 + 1 from rfl, lenChunks]
  norm_num
  rw [show (20 : Nat) = 19 + 1 from rfl, lenChunks]
  norm_num
  rw [lenChunks]

/-! ### Helper lemmas for the loader -/

theorem parseList_eq_none_of_mem (f : α → Option β) (l : List α) (a : α)
    (ha : a ∈ l) (hfa : f a = none) : parseList f l = none := by
  induction l with
  | nil => simp at ha
  | cons x rest ih =>
    rcases List.mem_cons.mp ha with rfl | hmem
    · simp [parseList, hfa]
    · simp only [parseList]
      cases f x with
      | none => rfl
      | some b => rw [ih hmem]

theorem load_data_obj (kvs : List (String × Json)) :
    load_data (.json (.obj kvs)) =
      (match parseBucket (jLookup "simulation" kvs), parseBucket (jLookup "real" kvs),
             parseBucket (jLookup "famous" kvs) with
       | some sim, some re, some fam =>
         { meta := (jLookup "meta" kvs).getD defaultMeta,
           simulation := sim, real := re, famous := fam }
       | _, _, _ => defaultData) := rfl

/-! ### Concrete scenarios used by the claims -/

/-- Mirror of the simulation walker's control flow that records, instead
of the fetched details, exactly which id lists are handed to the batched
detail fetch. -/
def sim_requested_qids (up : Upstream) (existing : List Int) : List (List Int) :=
  match up.simPapers with
  | none => []
  | some papers =>
    papers.flatMap fun paper =>
      (paper.rolls.getD []).flatMap fun roll =>
        match roll.qids with
        | none => []
        | some qids_str =>
          if qids_str.data.isEmpty then []
          else
            match filterExisting existing (parseQids qids_str) with
            | none => []
            | some qids => [qids]

/-- A fully-populated stored question with the given id. -/
def c1Question (n : Int) : Question :=
  { id := .num n, origin_name := .str "Paper", sub_name := .str "Roll",
    content := .str "existing question", options := [⟨.str "A", .str "first option"⟩],
    answer := .arr [.str "A"], analysis := .str "why", comments := .arr [],
    type := .num 0, user_status := .str "new", last_reviewed := .null,
    source := .str "simulation" }

/-- A data file holding simulation questions 1, 2 and 3 (exactly as a
previous save would have written them). -/
def c1File : FileState :=
  save_data { meta := defaultMeta,
              simulation := [c1Question 1, c1Question 2, c1Question 3],
              real := [], famous := [] }

/-- An upstream whose simulation source offers one paper with one roll
carrying ids 1..5, and whose other sources return nothing. -/
def c1Upstream : Upstream where
  simPapers := some [{ name := some "Paper",
                       rolls := some [{ name := some "Roll", qids := some "1,2,3,4,5" }] }]
  realPapers := some []
  famousClasses := some []
  books := fun _ => none
  chapters := fun _ _ => none
  details := fun ids => some (ids.map fun i =>
    Json.obj [("id", .num i), ("title", .str "new question"), ("correct", .str "1"),
              ("a", .str "first option")])
  comments := fun _ => []

/-- Incremental sync of all three sources, default batch size, no
comments. -/
def c1Cfg : SyncConfig :=
  { selSimulation := true, selReal := true, selFamous := true,
    incremental := true, batch_size := 50, include_comments := false }

/-- The id values stored in the simulation bucket of a data file. -/
def simIdsOfFile (fs : FileState) : List Json :=
  match fs with
  | .json (.obj kvs) =>
    match jLookup "simulation" kvs with
    | some (.arr l) =>
      l.map fun q => match q with | .obj k2 => (jLookup "id" k2).getD .null | _ => .null
    | _ => []
  | _ => []

/-- The key names of the first simulation question stored in a data file;
invariant under reordering of keys and reformatting of whitespace. -/
def firstSimKeys (j : Json) : List String :=
  match j with
  | .obj kvs =>
    match jLookup "simulation" kvs with
    | some (.arr (q :: _)) =>
      match q with
      | .obj qkvs => qkvs.map Prod.fst
      | _ => []
    | _ => []
  | _ => []

/-- A well-formed legacy data file: the stored question has every
required key but lacks the optional `comments`, `type`, `user_status`,
`last_reviewed` and `source` keys. -/
def legacyFileJson : Json :=
  .obj [("meta", defaultMeta),
        ("simulation", .arr [.obj [("id", .num 1), ("origin_name", .str "mock paper"),
          ("sub_name", .str "roll one"), ("content", .str "question text"),
          ("options", .arr []), ("answer", .arr [.str "A"]), ("analysis", .str "because")]]),
        ("real", .arr []), ("famous", .arr [])]

/-- A stored question with id 7, used as the point-update target. -/
def sampleQ : Question :=
  { id := .num 7, origin_name := .str "Paper", sub_name := .str "Roll",
    content := .str "Question text", options := [⟨.str "A", .str "first option"⟩],
    answer := .arr [.str "A"], analysis := .str "analysis", comments := .arr [],
    type := .num 0, user_status := .str "new", last_reviewed := .null,
    source := .str "simulation" }

/-- A dataset holding only `sampleQ`. -/
def sampleData : ErrorData :=
  { meta := defaultMeta, simulation := [sampleQ], real := [], famous := [] }

/-- The data file written for `sampleData`. -/
def sampleFile : FileState := save_data sampleData

/-! ### The claims -/

/-- Claim C1 (code bug).  In incremental mode already-present ids are
indeed never re-fetched (only `[4, 5]` is requested from the detail
endpoint when ids 1–3 are on disk and the chapter offers 1–5), but the
sync flow then writes `fetch_all_errors`'s result — which contains only
the newly fetched questions — straight over the data file, so the
resulting file holds exactly ids 4 and 5: the already-present questions
1, 2 and 3 are deleted rather than left untouched, contradicting the
claim's append/no-delete guarantee. -/
theorem C1_incremental_sync_deletes_existing :
    _load_existing_ids c1File = ([1, 2, 3], [], []) ∧
    sim_requested_qids c1Upstream [1, 2, 3] = [[4, 5]] ∧
    simIdsOfFile (sync_data c1Upstream c1File c1Cfg "2026-01-01T00:00:00Z").2
      = [Json.num 4, Json.num 5] :=
  ⟨rfl, rfl, rfl⟩

/-- Claim C2.  For every raw question whose stripped `correct` field is
non-empty, the normalized `answer` list is exactly the claim's decoding:
the all-digits branch maps digits 1–4 to A–D in digit order dropping the
rest, the other branch splits on commas and trims/upper-cases each piece;
the branches are mutually exclusive by construction of `answerSpec`. -/
theorem C2_answer_key_decoding (raw : List (String × Json)) (st ogn sn : String)
    (hne : raw.isEmpty = false)
    (hc : (pyStrip (pyStr (pyGetKv raw "correct" (.str "")))).data.isEmpty = false) :
    answerOf (_normalize_question raw st ogn sn)
      = some (.arr ((answerSpec (pyStrip (pyStr (pyGetKv raw "correct" (.str ""))))).map
          Json.str)) := by
  unfold _normalize_question answerOf
  simp only [hne, Bool.false_eq_true, if_false, jLookup, hc, decodeCorrect_eq_answerSpec]
  simp +decide only [if_true, if_false]

/-- Witness for C2 at `correct="13"`: the two hypotheses hold and the
decoded answer is `["A", "C"]`. -/
theorem C2_answer_key_decoding_witness :
    (([("correct", Json.str "13")] : List (String × Json)).isEmpty = false) ∧
    ((pyStrip (pyStr (pyGetKv [("correct", Json.str "13")] "correct" (.str "")))).data.isEmpty
      = false) ∧
    answerSpec (pyStrip (pyStr (pyGetKv [("correct", Json.str "13")] "correct" (.str ""))))
      = ["A", "C"] ∧
    answerOf (_normalize_question [("correct", Json.str "13")] "simulation" "origin" "sub")
      = some (.arr ((answerSpec (pyStrip (pyStr
          (pyGetKv [("correct", Json.str "13")] "correct" (.str ""))))).map Json.str)) :=
  ⟨rfl, rfl, rfl, C2_answer_key_decoding [("correct", Json.str "13")] "simulation" "origin" "sub"
    rfl rfl⟩

/-- Claim C3.  `update_question_status` behaves exactly as the claim-side
first-match updater: when some question in the scan order simulation →
real → famous has the id, it writes the dataset with that first match's
`user_status` and `last_reviewed` set and returns true; when no bucket
holds the id it returns false and the file value is returned unchanged
(no write); and the no-match case happens exactly when every question in
every bucket has a different id. -/
theorem C3_update_status_scan_and_write (fs : FileState) (qid : Int) (ns ts : String) :
    update_question_status fs qid ns ts =
      (match updateStatusClaim (load_data fs) qid ns ts with
       | some d' => (true, save_data d')
       | none => (false, fs)) ∧
    (updateStatusClaim (load_data fs) qid ns ts = none ↔
      (allQuestions (load_data fs)).all (fun q => !hasIdQ qid q) = true) :=
  ⟨update_matches_claim fs qid ns ts, updateStatusClaim_none_iff (load_data fs) qid ns ts⟩

/-- Claim C4.  For a positive batch size the batched detail fetch is the
concatenation, in input order, of one oracle call per contiguous chunk of
at most `batch_size` ids (failed or empty chunks contributing nothing),
the chunks reassemble the input exactly, their sizes are `lenChunks`, and
for 120 ids with batch size 50 the sizes are `[50, 50, 20]` — three
downstream calls. -/
theorem C4_batched_fetch_chunks (oracle : List Int → Option (List Json)) (qids : List Int)
    (bs : Nat) (hbs : 0 < bs) :
    (chunksOf bs qids).flatten = qids ∧
    (∀ c ∈ chunksOf bs qids, c ≠ [] ∧ c.length ≤ bs) ∧
    get_question_details_batched oracle qids bs
      = (chunksOf bs qids).flatMap (fun c => (oracle c).getD []) ∧
    (chunksOf bs qids).map List.length = lenChunks bs qids.length ∧
    (qids.length = 120 → bs = 50 → (chunksOf bs qids).map List.length = [50, 50, 20]) := by
  refine ⟨chunksGo_flatten bs hbs qids.length qids le_rfl,
          chunksGo_mem bs hbs qids.length qids le_rfl,
          batchedGo_eq_chunks oracle bs hbs qids.length qids le_rfl,
          chunksGo_lengths bs hbs qids.length qids le_rfl, ?_⟩
  intro h120 h50
  subst h50
  unfold chunksOf
  rw [chunksGo_lengths 50 hbs qids.length qids le_rfl, h120, lenChunks_50_120]

/-- Witness for C4 at 120 ids and batch size 50. -/
theorem C4_batched_fetch_chunks_witness :
    (0 : Nat) < 50 ∧
    ((chunksOf 50 ((List.range 120).map Int.ofNat)).flatten = (List.range 120).map Int.ofNat ∧
     (∀ c ∈ chunksOf 50 ((List.range 120).map Int.ofNat), c ≠ [] ∧ c.length ≤ 50) ∧
     get_question_details_batched (fun c => some (c.map Json.num))
        ((List.range 120).map Int.ofNat) 50
       = (chunksOf 50 ((List.range 120).map Int.ofNat)).flatMap
           (fun c => ((fun c => some (c.map Json.num)) c).getD []) ∧
     (chunksOf 50 ((List.range 120).map Int.ofNat)).map List.length
       = lenChunks 50 ((List.range 120).map Int.ofNat).length ∧
     (((List.range 120).map Int.ofNat).length = 120 → 50 = 50 →
       (chunksOf 50 ((List.range 120).map Int.ofNat)).map List.length = [50, 50, 20])) :=
  ⟨by decide, C4_batched_fetch_chunks (fun c => some (c.map Json.num))
    ((List.range 120).map Int.ofNat) 50 (by decide)⟩

/-- Claim C5.  A missing or unparseable data file makes `load_data`
return the default dataset — meta `{"last_sync": null, "version": "1.0"}`
and no questions in any bucket — without propagating any exception (the
model is a total function). -/
theorem C5_load_defaults_on_missing_or_corrupt :
    load_data FileState.missing = defaultData ∧
    load_data FileState.corrupt = defaultData ∧
    defaultData.meta = Json.obj [("last_sync", Json.null), ("version", Json.str "1.0")] ∧
    defaultData.simulation = [] ∧ defaultData.real = [] ∧ defaultData.famous = [] :=
  ⟨rfl, rfl, rfl, rfl, rfl, rfl⟩

/-- Counterexample to claim C6.  `legacyFileJson` is a well-formed data
file (it loads into a dataset with one simulation question), yet
`save(load())` writes a question object that now carries a `source` key
the original file never had — a difference in key membership, which no
reordering of keys or reformatting of whitespace can explain, so the
round trip is not a no-op on this file's content. -/
theorem C6_roundtrip_counterexample :
    (load_data (.json legacyFileJson)).simulation.length = 1 ∧
    "source" ∈ firstSimKeys (encodeData (load_data (.json legacyFileJson))) ∧
    "source" ∉ firstSimKeys legacyFileJson :=
  ⟨rfl, by decide, by decide⟩

/-- Claim C6 as amended.  `save(load())` is a no-op exactly on files
already in saved form: loading a saved dataset returns it unchanged, so
the second save writes the identical content, and repeated saves of
unchanged data are stable.  (A well-formed file lacking optional keys —
such as a legacy record without `source` or `comments` — is first
rewritten with the defaulted keys materialized, as the counterexample
shows.) -/
theorem C6_roundtrip_amended (d : ErrorData) :
    load_data (save_data d) = d ∧
    save_data (load_data (save_data d)) = save_data d :=
  ⟨load_data_save_data d, by rw [load_data_save_data d]⟩

/-- Claim C7.  For an id present in the dataset, updating twice with the
same status at successive timestamps succeeds both times, persists the
same `user_status` after each call, and the persisted `last_reviewed`
after the second call (`ts2`) is later than the one persisted by the
first call (`ts1`), the clock having advanced between the calls. -/
theorem C7_update_status_idempotent (fs : FileState) (qid : Int) (ns ts1 ts2 : String)
    (hpresent : (allQuestions (load_data fs)).any (hasIdQ qid) = true)
    (hlt : pyStrLt ts1 ts2 = true) :
    (update_question_status fs qid ns ts1).1 = true ∧
    (update_question_status (update_question_status fs qid ns ts1).2 qid ns ts2).1 = true ∧
    statusOf (load_data (update_question_status fs qid ns ts1).2) qid = some (.str ns) ∧
    statusOf (load_data (update_question_status
      (update_question_status fs qid ns ts1).2 qid ns ts2).2) qid = some (.str ns) ∧
    lastReviewedOf (load_data (update_question_status fs qid ns ts1).2) qid
      = some (.str ts1) ∧
    lastReviewedOf (load_data (update_question_status
      (update_question_status fs qid ns ts1).2 qid ns ts2).2) qid = some (.str ts2) ∧
    pyStrLt ts1 ts2 = true := by
  obtain ⟨d1, hd1, _, _, _, _, hfind1⟩ :=
    updateStatusClaim_found (load_data fs) qid ns ts1 hpresent
  obtain ⟨a, ha⟩ := exists_find?_of_any _ _ hpresent
  have h1 : update_question_status fs qid ns ts1 = (true, save_data d1) := by
    rw [update_matches_claim fs qid ns ts1, hd1]
  have hload1 : load_data (update_question_status fs qid ns ts1).2 = d1 := by
    rw [h1]; exact load_data_save_data d1
  have hfind1' : (allQuestions d1).find? (hasIdQ qid) = some (updQ a ns ts1) := by
    rw [hfind1, ha, Option.map_some']
  have hany1 : (allQuestions d1).any (hasIdQ qid) = true :=
    any_of_find? _ _ _ hfind1'
  obtain ⟨d2, hd2, _, _, _, _, hfind2⟩ := updateStatusClaim_found d1 qid ns ts2 hany1
  have h2 : update_question_status (update_question_status fs qid ns ts1).2 qid ns ts2
      = (true, save_data d2) := by
    rw [h1]
    have hds : load_data (save_data d1) = d1 := load_data_save_data d1
    rw [update_matches_claim (save_data d1) qid ns ts2, hds, hd2]
  have hload2 : load_data (update_question_status
      (update_question_status fs qid ns ts1).2 qid ns ts2).2 = d2 := by
    rw [h2]; exact load_data_save_data d2
  have hfind2' : (allQuestions d2).find? (hasIdQ qid)
      = some (updQ (updQ a ns ts1) ns ts2) := by
    rw [hfind2, hfind1', Option.map_some']
  refine ⟨by rw [h1], by rw [h2], ?_, ?_, ?_, ?_, hlt⟩
  · rw [statusOf, hload1, hfind1']; rfl
  · rw [statusOf, hload2, hfind2']; rfl
  · rw [lastReviewedOf, hload1, hfind1']; rfl
  · rw [lastReviewedOf, hload2, hfind2']; rfl

/-- Witness for C7: question 7 exists in `sampleFile` and the two
timestamps are in Python string order. -/
theorem C7_update_status_idempotent_witness :
    (allQuestions (load_data sampleFile)).any (hasIdQ 7) = true ∧
    pyStrLt "2026-01-01T00:00:00" "2026-01-02T00:00:00" = true ∧
    ((update_question_status sampleFile 7 "mastered" "2026-01-01T00:00:00").1 = true ∧
     (update_question_status (update_question_status sampleFile 7 "mastered"
        "2026-01-01T00:00:00").2 7 "mastered" "2026-01-02T00:00:00").1 = true ∧
     statusOf (load_data (update_question_status sampleFile 7 "mastered"
        "2026-01-01T00:00:00").2) 7 = some (.str "mastered") ∧
     statusOf (load_data (update_question_status (update_question_status sampleFile 7 "mastered"
        "2026-01-01T00:00:00").2 7 "mastered" "2026-01-02T00:00:00").2) 7
       = some (.str "mastered") ∧
     lastReviewedOf (load_data (update_question_status sampleFile 7 "mastered"
        "2026-01-01T00:00:00").2) 7 = some (.str "2026-01-01T00:00:00") ∧
     lastReviewedOf (load_data (update_question_status (update_question_status sampleFile 7
        "mastered" "2026-01-01T00:00:00").2 7 "mastered" "2026-01-02T00:00:00").2) 7
       = some (.str "2026-01-02T00:00:00") ∧
     pyStrLt "2026-01-01T00:00:00" "2026-01-02T00:00:00" = true) :=
  ⟨rfl, rfl, C7_update_status_idempotent sampleFile 7 "mastered" "2026-01-01T00:00:00"
    "2026-01-02T00:00:00" rfl rfl⟩

/-- Counterexample to claim C8.  For the raw question
`{"id": 1, "title": null}` — whose title is certainly not non-empty —
the normalizer returns a question whose `content` is JSON null, not the
empty string: Python's `question_data.get("title", "")` only falls back
to `""` when the key is absent, not when it holds `None`. -/
theorem C8_title_null_counterexample :
    (_normalize_question [("id", Json.num 1), ("title", Json.null)] "simulation" "o" "s").isSome
      = true ∧
    contentOf (_normalize_question [("id", Json.num 1), ("title", Json.null)]
      "simulation" "o" "s") = some Json.null ∧
    Json.null ≠ Json.str "" :=
  ⟨rfl, rfl, fun h => Json.noConfusion h⟩

/-- Claim C8 as amended.  `_normalize_question` returns null exactly when
the raw question is empty; otherwise `content` is the raw `title` value
verbatim whenever the key is present (including a JSON null), and the
empty string only when the key is absent. -/
theorem C8_content_amended (raw : List (String × Json)) (st ogn sn : String) :
    (_normalize_question raw st ogn sn = none ↔ raw.isEmpty = true) ∧
    (raw.isEmpty = false →
      contentOf (_normalize_question raw st ogn sn) = some (pyGetKv raw "title" (.str ""))) := by
  constructor
  · unfold _normalize_question
    cases raw with
    | nil => simp
    | cons kv rest => simp
  · intro hne
    unfold _normalize_question contentOf
    simp only [hne, Bool.false_eq_true, if_false, jLookup]
    simp +decide only [if_true, if_false]

/-- Witness for C8 at a raw question with a present, non-empty title. -/
theorem C8_content_amended_witness :
    (([("title", Json.str "hello")] : List (String × Json)).isEmpty = false) ∧
    contentOf (_normalize_question [("title", Json.str "hello")] "simulation" "o" "s")
      = some (pyGetKv [("title", Json.str "hello")] "title" (.str "")) :=
  ⟨rfl, (C8_content_amended [("title", Json.str "hello")] "simulation" "o" "s").2 rfl⟩

/-- Claim C9.  When the id is present, the point update writes a dataset
whose meta is unchanged and whose scan order splits as `A ++ q :: B` with
`q` the first question carrying the id (everything in `A` has a different
id): the saved dataset is exactly `A ++ updQ q :: B` — so every other
question in every bucket is the identical list element — and the rewrite
of `q` changes only `user_status` and `last_reviewed`, every other field
being equal (`onlyStatusChanged`).  Moreover exactly one bucket receives
that single mid-replacement while the other two buckets and the bucket
lengths (hence order and membership) are unchanged between the loaded and
the saved dataset. -/
theorem C9_update_status_frame (fs : FileState) (qid : Int) (ns ts : String)
    (hpresent : (allQuestions (load_data fs)).any (hasIdQ qid) = true) :
    ∃ d' A q B,
      update_question_status fs qid ns ts = (true, save_data d') ∧
      d'.meta = (load_data fs).meta ∧
      d'.simulation.length = (load_data fs).simulation.length ∧
      d'.real.length = (load_data fs).real.length ∧
      d'.famous.length = (load_data fs).famous.length ∧
      allQuestions (load_data fs) = A ++ q :: B ∧
      allQuestions d' = A ++ updQ q ns ts :: B ∧
      hasIdQ qid q = true ∧
      (∀ p ∈ A, hasIdQ qid p = false) ∧
      onlyStatusChanged q (updQ q ns ts) ns ts ∧
      ((∃ s1 s2, (load_data fs).simulation = s1 ++ q :: s2 ∧
          d'.simulation = s1 ++ updQ q ns ts :: s2 ∧
          d'.real = (load_data fs).real ∧ d'.famous = (load_data fs).famous) ∨
       (∃ r1 r2, d'.simulation = (load_data fs).simulation ∧
          (load_data fs).real = r1 ++ q :: r2 ∧
          d'.real = r1 ++ updQ q ns ts :: r2 ∧ d'.famous = (load_data fs).famous) ∨
       (∃ f1 f2, d'.simulation = (load_data fs).simulation ∧
          d'.real = (load_data fs).real ∧
          (load_data fs).famous = f1 ++ q :: f2 ∧
          d'.famous = f1 ++ updQ q ns ts :: f2)) := by
  obtain ⟨d', A, q, B, hd', hmeta, hls, hlr, hlf, hsplit, hsplit', hq, hA, hbuckets⟩ :=
    updateStatusClaim_decomp (load_data fs) qid ns ts hpresent
  refine ⟨d', A, q, B, ?_, hmeta, hls, hlr, hlf, hsplit, hsplit', hq, hA,
    onlyStatusChanged_updQ q ns ts, hbuckets⟩
  rw [update_matches_claim fs qid ns ts, hd']

/-- Witness for C9: updating question 7 of `sampleFile`. -/
theorem C9_update_status_frame_witness :
    (allQuestions (load_data sampleFile)).any (hasIdQ 7) = true ∧
    (∃ d' A q B,
      update_question_status sampleFile 7 "reviewing" "2026-03-04T05:06:07" =
        (true, save_data d') ∧
      d'.meta = (load_data sampleFile).meta ∧
      d'.simulation.length = (load_data sampleFile).simulation.length ∧
      d'.real.length = (load_data sampleFile).real.length ∧
      d'.famous.length = (load_data sampleFile).famous.length ∧
      allQuestions (load_data sampleFile) = A ++ q :: B ∧
      allQuestions d' = A ++ updQ q "reviewing" "2026-03-04T05:06:07" :: B ∧
      hasIdQ 7 q = true ∧
      (∀ p ∈ A, hasIdQ 7 p = false) ∧
      onlyStatusChanged q (updQ q "reviewing" "2026-03-04T05:06:07")
        "reviewing" "2026-03-04T05:06:07" ∧
      ((∃ s1 s2, (load_data sampleFile).simulation = s1 ++ q :: s2 ∧
          d'.simulation = s1 ++ updQ q "reviewing" "2026-03-04T05:06:07" :: s2 ∧
          d'.real = (load_data sampleFile).real ∧
          d'.famous = (load_data sampleFile).famous) ∨
       (∃ r1 r2, d'.simulation = (load_data sampleFile).simulation ∧
          (load_data sampleFile).real = r1 ++ q :: r2 ∧
          d'.real = r1 ++ updQ q "reviewing" "2026-03-04T05:06:07" :: r2 ∧
          d'.famous = (load_data sampleFile).famous) ∨
       (∃ f1 f2, d'.simulation = (load_data sampleFile).simulation ∧
          d'.real = (load_data sampleFile).real ∧
          (load_data sampleFile).famous = f1 ++ q :: f2 ∧
          d'.famous = f1 ++ updQ q "reviewing" "2026-03-04T05:06:07" :: f2))) :=
  ⟨rfl, C9_update_status_frame sampleFile 7 "reviewing" "2026-03-04T05:06:07" rfl⟩

/-- Claim C10.  If any bucket of an otherwise arbitrary data file
contains a question record the parser rejects (for example one missing a
required key), `load_data` returns the empty default dataset, discarding
every well-formed record in the file as well. -/
theorem C10_malformed_record_discards_all (kvs : List (String × Json))
    (h : ∃ b ∈ (["simulation", "real", "famous"] : List String),
      ∃ l q, jLookup b kvs = some (Json.arr l) ∧ q ∈ l ∧ parseQuestion q = none) :
    load_data (.json (.obj kvs)) = defaultData := by
  obtain ⟨b, hb, l, q, hlook, hmem, hq⟩ := h
  rw [load_data_obj]
  simp only [List.mem_cons, List.mem_singleton, List.not_mem_nil, or_false] at hb
  rcases hb with rfl | rfl | rfl
  · have hnone : parseBucket (jLookup "simulation" kvs) = none := by
      rw [hlook]; exact parseList_eq_none_of_mem _ _ _ hmem hq
    rw [hnone]
  · have hnone : parseBucket (jLookup "real" kvs) = none := by
      rw [hlook]; exact parseList_eq_none_of_mem _ _ _ hmem hq
    rw [hnone]
    cases parseBucket (jLookup "simulation" kvs) <;> cases parseBucket (jLookup "famous" kvs)
      <;> rfl
  · have hnone : parseBucket (jLookup "famous" kvs) = none := by
      rw [hlook]; exact parseList_eq_none_of_mem _ _ _ hmem hq
    rw [hnone]
    cases parseBucket (jLookup "simulation" kvs) <;> cases parseBucket (jLookup "real" kvs)
      <;> rfl

/-- Witness for C10: a file holding one record that lacks all required
keys but `id` inside an otherwise well-formed file loads as the default
dataset. -/
theorem C10_malformed_record_discards_all_witness :
    (∃ b ∈ (["simulation", "real", "famous"] : List String),
      ∃ l q, jLookup b [("meta", defaultMeta),
          ("simulation", .arr [.obj [("id", .num 2)]]), ("real", .arr []), ("famous", .arr [])]
        = some (Json.arr l) ∧ q ∈ l ∧ parseQuestion q = none) ∧
    load_data (.json (.obj [("meta", defaultMeta),
        ("simulation", .arr [.obj [("id", .num 2)]]), ("real", .arr []), ("famous", .arr [])]))
      = defaultData :=
  ⟨⟨"simulation", by simp, [.obj [("id", .num 2)]], .obj [("id", .num 2)], rfl, by simp, rfl⟩,
   C10_malformed_record_discards_all _ ⟨"simulation", by simp, [.obj [("id", .num 2)]],
     .obj [("id", .num 2)], rfl, by simp, rfl⟩⟩
